import Mathlib

/-!
Verification of the response-parsing core and collaborator glue of the
trading-analysis application (`src/app.py`).

The Python source is shallowly embedded: Python `str` values are Lean
`String`s (operated on through their `List Char` data), Python dicts with a
fixed key set become structures, and the fallible external calls (LLM,
market-data fetch) are modelled by explicit `Except`/`Option`-valued
parameters standing for the opaque network operations.
-/

namespace TradersF

/-- The ASCII whitespace characters removed by Python `str.strip()`. -/
def pyIsSpace (c : Char) : Bool :=
  c = ' ' || c = '\t' || c = '\n' || c = '\r' || c = '\x0b' || c = '\x0c'

/-- Python `str.strip()` on the character list: drop whitespace from both ends. -/
def pyStripL (l : List Char) : List Char :=
  ((l.dropWhile pyIsSpace).reverse.dropWhile pyIsSpace).reverse

/-- Python `str.strip()`. -/
def pyStrip (s : String) : String := String.mk (pyStripL s.data)

/-- Python `str.upper()` on one character, covering ASCII letters and the
Spanish accented letters that occur in this application's keyword table and
prompts (Python's full Unicode case map is wider, but no other code point is
relevant to the embedded code). -/
def pyUpperChar (c : Char) : Char :=
  if c = 'á' then 'Á' else if c = 'é' then 'É' else if c = 'í' then 'Í'
  else if c = 'ó' then 'Ó' else if c = 'ú' then 'Ú' else if c = 'ñ' then 'Ñ'
  else if c = 'ü' then 'Ü' else c.toUpper

/-- Python `str.upper()` on the character list. -/
def pyUpperL (l : List Char) : List Char := l.map pyUpperChar

/-- Python `text.replace('**', '')`: remove non-overlapping `**` pairs,
scanning left to right. -/
def removeStarStar : List Char → List Char
  | [] => []
  | [c] => [c]
  | c1 :: c2 :: rest =>
    if c1 = '*' ∧ c2 = '*' then removeStarStar rest
    else c1 :: removeStarStar (c2 :: rest)

/-- Python `str.split('\n')`: split on every newline, keeping empty pieces;
the empty string yields one empty piece. -/
def splitNlL : List Char → List (List Char)
  | [] => [[]]
  | c :: rest =>
    if c = '\n' then [] :: splitNlL rest
    else
      match splitNlL rest with
      | [] => [[c]]
      | h :: t => (c :: h) :: t

/-- The tail of Python `line.split(':', 1)`: `some` of the text after the
first colon when one exists, `none` otherwise (in which case the Python code
leaves the field untouched). -/
def colonRest : List Char → Option (List Char)
  | [] => none
  | c :: rest => if c = ':' then some rest else colonRest rest

/-- The five keys of the `res` dict of `parse_analysis`. -/
inductive Campo where
  | tecnico | decision | tipo | riesgo | motivo
deriving DecidableEq, Repr, Fintype

/-- The `mapeo` keyword table of `parse_analysis`, in source order. -/
def mapeo : Campo → List String
  | .tecnico => ["ANALISIS", "ESTRUCTURA"]
  | .decision => ["DECISION", "DECISIÓN"]
  | .tipo => ["TIPO", "OPERACION"]
  | .riesgo => ["RIESGO"]
  | .motivo => ["MOTIVO", "JUSTIFICACION"]

/-- The insertion (iteration) order of the keys of the `mapeo` dict. -/
def tableOrder : List Campo := [.tecnico, .decision, .tipo, .riesgo, .motivo]

/-- The `res` dict of `parse_analysis`: one string per key. -/
structure AnalysisRes where
  tecnico : String
  decision : String
  tipo : String
  riesgo : String
  motivo : String
deriving DecidableEq, Repr

/-- The initial value of `res`: the documented defaults
(`'...'`, `'ESPERAR'`, `'N/A'`, `'ALTO'`, `'...'`). -/
def defaultRes : AnalysisRes :=
  { tecnico := "...", decision := "ESPERAR", tipo := "N/A",
    riesgo := "ALTO", motivo := "..." }

/-- Dict lookup `res[key]`. -/
def field : Campo → AnalysisRes → String
  | .tecnico, r => r.tecnico
  | .decision, r => r.decision
  | .tipo, r => r.tipo
  | .riesgo, r => r.riesgo
  | .motivo, r => r.motivo

/-- Dict assignment `res[key] = v`. -/
def setField (r : AnalysisRes) : Campo → String → AnalysisRes
  | .tecnico, v => { r with tecnico := v }
  | .decision, v => { r with decision := v }
  | .tipo, v => { r with tipo := v }
  | .riesgo, v => { r with riesgo := v }
  | .motivo, v => { r with motivo := v }

/-- One keyword test of the inner loop of `parse_analysis`:
`if upper.startswith(kw): parts = line.split(':', 1);`
`if len(parts) > 1: res[key] = parts[1].strip()`. -/
def applyKw (k : Campo) (line upper : List Char) (r : AnalysisRes) (kw : String) :
    AnalysisRes :=
  if kw.data.isPrefixOf upper then
    match colonRest line with
    | some rest => setField r k (String.mk (pyStripL rest))
    | none => r
  else r

/-- The loop `for kw in keywords` of `parse_analysis` for one key. -/
def applyKey (line upper : List Char) (r : AnalysisRes) (k : Campo) : AnalysisRes :=
  (mapeo k).foldl (applyKw k line upper) r

/-- One iteration of the loop `for line in clean.split('\n')` of
`parse_analysis`: strip the line, skip it when empty, otherwise run every
(key, keyword) pair of `mapeo` over it in table order (the source has no
`break`: it keeps scanning after a match). -/
def processLine (r : AnalysisRes) (rawLine : List Char) : AnalysisRes :=
  if pyStripL rawLine = [] then r
  else tableOrder.foldl
    (applyKey (pyStripL rawLine) (pyUpperL (pyStripL rawLine))) r

/-- `parse_analysis` of `src/app.py`:
`clean = text.replace('**', '').strip()`, then fold the per-line scanner
over `clean.split('\n')`, starting from the defaulted `res`. -/
def parse_analysis (text : String) : AnalysisRes :=
  let clean := pyStripL (removeStarStar text.data)
  (splitNlL clean).foldl processLine defaultRes

/-! ## LLM gateway (`analyze_data_with_ai`, `analyze_chart`) -/

/-- The `DATA_PROMPT` constant of `src/app.py`. -/
def DATA_PROMPT : String :=
  "\nEres un estratega de trading cuantitativo. Analiza los siguientes DATOS TÉCNICOS y responde con este formato exacto:\n\nANALISIS: [Interpretación de la acción del precio y los indicadores]\nDECISION: [OPERAR / ESPERAR / NO OPERAR]\nTIPO: [COMPRA / VENTA / N/A]\nRIESGO: [BAJO / MEDIO / ALTO]\nMOTIVO: [Confluencia detectada, configuración del setup y niveles clave de invalidación]\n\nREGLA: Si los indicadores no muestran una confluencia clara, la decisión debe ser ESPERAR.\n"

/-- The `IMAGE_PROMPT` constant of `src/app.py`. -/
def IMAGE_PROMPT : String :=
  "\nEres un analista senior de trading. Analiza la IMAGEN y responde con este formato exacto:\n\nANALISIS: [Detalles técnicos del gráfico]\nDECISION: [OPERAR / ESPERAR / NO OPERAR]\nTIPO: [COMPRA / VENTA / N/A]\nRIESGO: [BAJO / MEDIO / ALTO]\nMOTIVO: [Justificación de la decisión y qué invalidaría la operación]\n\nREGLA: Sé conservador y prioriza la protección del capital.\n"

/-- The `data_summary` dict handed to `analyze_data_with_ai`. Its values are
the `str()` renderings that the f-string interpolates (the numeric fields are
only ever formatted into text by this function, so they are carried as the
interpolated strings). -/
structure DataSummary where
  symbol : String
  price : String
  rsi : String
  ema20 : String
  ema50 : String
  trend : String
  change_pct : String

/-- The `input_text` f-string of `analyze_data_with_ai`, byte for byte. -/
def buildInputText (d : DataSummary) : String :=
  "\n    Datos de Mercado EN VIVO (" ++ d.symbol ++ "):\n    - Precio: " ++
    d.price ++ "\n    - RSI (14): " ++ d.rsi ++ "\n    - EMA 20: " ++ d.ema20 ++
    " - EMA 50: " ++ d.ema50 ++ "\n    - Tendencia Técnica: " ++ d.trend ++
    "\n    - Momentum: " ++ d.change_pct ++ "%\n    "

/-- `analyze_data_with_ai` of `src/app.py`. The Gemini call
`client.models.generate_content(model=..., contents=[...])` is an opaque
network operation, modelled by the parameter `llm` from the `contents` list
to `Except` (`.error e` stands for a raised exception whose `str()` is `e`,
`.ok t` for a normal reply with `response.text = t`). The `try`/`except`
around the call returns `"ERROR_IA: " ++ str(e)` on any exception. -/
def analyze_data_with_ai (llm : List String → Except String String)
    (d : DataSummary) : String :=
  match llm [d.symbol, buildInputText d, DATA_PROMPT] with
  | .ok t => t
  | .error e => "ERROR_IA: " ++ e

/-- `analyze_chart` of `src/app.py`. The image bytes (read from disk before
the `try` block) are a byte list; the Gemini call over (bytes, prompt) is the
opaque parameter `llm` as in `analyze_data_with_ai`. -/
def analyze_chart (llm : List Nat → String → Except String String)
    (imageBytes : List Nat) (prompt : String) : String :=
  match llm imageBytes prompt with
  | .ok t => t
  | .error e => "ERROR_IA: " ++ e

/-! ## Market data (`MarketService.get_analysis_data`) -/

/-- Python `round(x, n)` modelled on rationals (the source rounds floats;
the claims checked here never depend on the rounded digits). -/
def roundTo (n : ℕ) (q : ℚ) : ℚ := (round (q * 10 ^ n) : ℤ) / 10 ^ n

/-- The `data_summary` dict built by `MarketService.get_analysis_data`. -/
structure MarketSummary where
  symbol : String
  price : ℚ
  rsi : ℚ
  ema20 : ℚ
  ema50 : ℚ
  trend : String
  change_pct : ℚ
deriving DecidableEq, Repr

/-- Pandas `df.iloc[-k]` on a column: valid only when the frame has at least
`k` rows, otherwise an `IndexError` is raised (modelled as `none`). -/
def ilocNeg (l : List ℚ) (k : ℕ) : Option ℚ :=
  if 1 ≤ k ∧ k ≤ l.length then l.get? (l.length - k) else none

/-- The `try` block of `get_analysis_data` from the point where the sorted
`Close` column exists. `ema20F`/`ema50F`/`rsiF` stand for the opaque
`ta.ema`/`ta.rsi` indicator computations on that column (`none` models a
NaN/absent value at the last row, as happens on short histories: comparisons
against NaN are false and `pd.notna` sends it to `0`). `df.iloc[-1]` and
`df.iloc[-2]` are the checked accesses; a float division by zero would also
raise. Any raised exception is caught by the surrounding `except`, which
returns `None` — so a `none` result of this chain is exactly the caught-
exception path. -/
def marketTry (ema20F ema50F rsiF : List ℚ → Option ℚ) (symbol : String)
    (closes : List ℚ) : Option MarketSummary := do
  let lastClose ← ilocNeg closes 1
  let e20 := ema20F closes
  let e50 := ema50F closes
  let r := rsiF closes
  let trend := match e20, e50 with
    | some a, some b => if b < a then "ALCISTA" else "BAJISTA"
    | _, _ => "BAJISTA"
  let prevClose ← ilocNeg closes 2
  if prevClose = 0 then none
  else
    some { symbol := symbol
           price := roundTo 5 lastClose
           rsi := match r with | some x => roundTo 2 x | none => 0
           ema20 := match e20 with | some x => roundTo 5 x | none => 0
           ema50 := match e50 with | some x => roundTo 5 x | none => 0
           trend := trend
           change_pct := roundTo 3 ((lastClose - prevClose) / prevClose * 100) }

/-- `MarketService.get_analysis_data` of `src/app.py`. `hasKey` is whether
`ALPHA_VANTAGE_KEY` is set; `series` is the upstream response after the
time-series key detection: `none` when no `"Time Series"`/`"Intraday"` key
was found (the early `return None`), `some closes` the chronologically
sorted `Close` column otherwise. The request/JSON/DataFrame mechanics are
inside the same `try`, but the claims checked here condition on a response
that did parse into a series. -/
def get_analysis_data (ema20F ema50F rsiF : List ℚ → Option ℚ) (hasKey : Bool)
    (symbol : String) (series : Option (List ℚ)) : Option MarketSummary :=
  if hasKey = false then none
  else
    match series with
    | none => none
    | some closes => marketTry ema20F ema50F rsiF symbol closes

/-! ## Input constructors used to state the well-formedness claims

These build the inputs the claims quantify over (a labeled five-section
reply); they are not part of the embedded program. -/

/-- The five section labels of the prompt format, one per field (the first
keyword of each `mapeo` entry). -/
def primKw : Campo → String
  | .tecnico => "ANALISIS"
  | .decision => "DECISION"
  | .tipo => "TIPO"
  | .riesgo => "RIESGO"
  | .motivo => "MOTIVO"

/-- A labeled section line `"LABEL: value"`. -/
def headerLineL (k : Campo) (v : List Char) : List Char :=
  (primKw k).data ++ ':' :: ' ' :: v

/-- Join lines with single newlines (inverse of `splitNlL` on
newline-free lines). -/
def joinNl : List (List Char) → List Char
  | [] => []
  | [l] => l
  | l :: ls => l ++ '\n' :: joinNl ls

/-- The record whose field values are given by `vals`. -/
def mkRes (vals : Campo → String) : AnalysisRes :=
  { tecnico := vals .tecnico, decision := vals .decision, tipo := vals .tipo,
    riesgo := vals .riesgo, motivo := vals .motivo }

/-! ## Helper lemmas on the Python string primitives -/

theorem dropWhile_eq_self_of_head (p : Char → Bool) (l : List Char)
    (h : ∀ c ∈ l.head?, p c = false) : l.dropWhile p = l := by
  cases l with
  | nil => rfl
  | cons a t => simp [List.dropWhile_cons, h a (by simp)]

theorem dropWhile_head_false (p : Char → Bool) (l : List Char)
    (h : l.dropWhile p = l) : ∀ c ∈ l.head?, p c = false := by
  intro c hc
  cases l with
  | nil => simp at hc
  | cons a t =>
    have hac : a = c := by simpa using hc
    subst hac
    cases hpa : p a with
    | false => rfl
    | true =>
      rw [List.dropWhile_cons_of_pos hpa] at h
      have hs : t.dropWhile p <:+ t := List.dropWhile_suffix p
      have hle := hs.length_le
      rw [h] at hle
      simp at hle

theorem pyStripL_cons_space (c : Char) (l : List Char) (h : pyIsSpace c = true) :
    pyStripL (c :: l) = pyStripL l := by
  simp [pyStripL, List.dropWhile_cons_of_pos h]

theorem pyStripL_eq_self (l : List Char)
    (h1 : ∀ c ∈ l.head?, pyIsSpace c = false)
    (h2 : ∀ c ∈ l.getLast?, pyIsSpace c = false) : pyStripL l = l := by
  unfold pyStripL
  rw [dropWhile_eq_self_of_head _ _ h1]
  rw [dropWhile_eq_self_of_head _ _ (by rw [List.head?_reverse]; exact h2)]
  exact l.reverse_reverse

theorem stripped_last_not_space (l : List Char) (hv : pyStripL l = l) :
    ∀ c ∈ l.getLast?, pyIsSpace c = false := by
  have hlen : ((l.dropWhile pyIsSpace).reverse.dropWhile pyIsSpace).length
      = l.length := by
    have := congrArg List.length hv
    simpa [pyStripL] using this
  have h1le := (List.dropWhile_suffix (l := l) pyIsSpace).length_le
  have h2le :=
    (List.dropWhile_suffix (l := (l.dropWhile pyIsSpace).reverse) pyIsSpace).length_le
  rw [List.length_reverse] at h2le
  have ha : l.dropWhile pyIsSpace = l :=
    (List.dropWhile_suffix pyIsSpace).eq_of_length (by omega)
  have hb : l.reverse.dropWhile pyIsSpace = l.reverse := by
    apply (List.dropWhile_suffix pyIsSpace).eq_of_length
    rw [ha] at hlen
    simpa using hlen
  intro c hc
  exact dropWhile_head_false _ _ hb c (by rw [List.head?_reverse]; exact hc)

/-! ## Helper lemmas on the keyword table and the line scanner -/

/-- No keyword of `mapeo` is a (weak) prefix of a keyword of another entry,
and within an entry only of itself. -/
theorem tableFree : ∀ (k1 k2 : Campo), ∀ kw1 ∈ mapeo k1, ∀ kw2 ∈ mapeo k2,
    kw1.data.isPrefixOf kw2.data = true → k1 = k2 ∧ kw1 = kw2 := by
  decide

/-- At most one (key, keyword) pair of the table can match a given line. -/
theorem matchUnique (u : List Char) (k1 k2 : Campo) (kw1 kw2 : String)
    (h1 : kw1 ∈ mapeo k1) (h2 : kw2 ∈ mapeo k2)
    (p1 : kw1.data.isPrefixOf u = true) (p2 : kw2.data.isPrefixOf u = true) :
    k1 = k2 ∧ kw1 = kw2 := by
  have c1 : kw1.data <+: u := List.isPrefixOf_iff_prefix.mp p1
  have c2 : kw2.data <+: u := List.isPrefixOf_iff_prefix.mp p2
  rcases List.prefix_or_prefix_of_prefix c1 c2 with h | h
  · exact tableFree k1 k2 kw1 h1 kw2 h2 (List.isPrefixOf_iff_prefix.mpr h)
  · obtain ⟨he1, he2⟩ := tableFree k2 k1 kw2 h2 kw1 h1 (List.isPrefixOf_iff_prefix.mpr h)
    exact ⟨he1.symm, he2.symm⟩

theorem field_setField (j k : Campo) (r : AnalysisRes) (v : String) :
    field j (setField r k v) = if j = k then v else field j r := by
  cases j <;> cases k <;> simp [field, setField]

theorem applyKw_of_neg {kw : String} {upper : List Char}
    (h : kw.data.isPrefixOf upper = false) (k : Campo) (line : List Char)
    (r : AnalysisRes) : applyKw k line upper r kw = r := by
  simp [applyKw, h]

theorem field_applyKw_ne {j k : Campo} (h : j ≠ k) (line upper : List Char)
    (r : AnalysisRes) (kw : String) :
    field j (applyKw k line upper r kw) = field j r := by
  unfold applyKw
  split
  · split
    · rw [field_setField, if_neg h]
    · rfl
  · rfl

theorem applyKey_nomatch {k : Campo} {upper : List Char}
    (h : ∀ kw ∈ mapeo k, kw.data.isPrefixOf upper = false) (line : List Char)
    (r : AnalysisRes) : applyKey line upper r k = r := by
  cases k with
  | tecnico =>
    simp only [applyKey, mapeo, List.foldl]
    rw [applyKw_of_neg (h "ANALISIS" (by decide)),
      applyKw_of_neg (h "ESTRUCTURA" (by decide))]
  | decision =>
    simp only [applyKey, mapeo, List.foldl]
    rw [applyKw_of_neg (h "DECISION" (by decide)),
      applyKw_of_neg (h "DECISIÓN" (by decide))]
  | tipo =>
    simp only [applyKey, mapeo, List.foldl]
    rw [applyKw_of_neg (h "TIPO" (by decide)),
      applyKw_of_neg (h "OPERACION" (by decide))]
  | riesgo =>
    simp only [applyKey, mapeo, List.foldl]
    rw [applyKw_of_neg (h "RIESGO" (by decide))]
  | motivo =>
    simp only [applyKey, mapeo, List.foldl]
    rw [applyKw_of_neg (h "MOTIVO" (by decide)),
      applyKw_of_neg (h "JUSTIFICACION" (by decide))]

theorem field_applyKey_ne {j k : Campo} (h : j ≠ k) (line upper : List Char)
    (r : AnalysisRes) : field j (applyKey line upper r k) = field j r := by
  cases k <;>
    simp only [applyKey, mapeo, List.foldl] <;>
    (repeat rw [field_applyKw_ne h])

/-- A field is untouched by the scan over the keys `ks` when its own
keywords do not match the line (other keys can never write into it). -/
theorem field_foldl_applyKey {k : Campo} {upper : List Char}
    (h : ∀ kw ∈ mapeo k, kw.data.isPrefixOf upper = false) (line : List Char) :
    ∀ (ks : List Campo) (r : AnalysisRes),
      field k (ks.foldl (applyKey line upper) r) = field k r := by
  intro ks
  induction ks with
  | nil => intro r; rfl
  | cons j t ih =>
    intro r
    rw [List.foldl_cons, ih]
    by_cases hjk : j = k
    · subst hjk; rw [applyKey_nomatch h]
    · exact field_applyKey_ne (fun he => hjk he.symm) line upper r

/-- A field is untouched by a whole line whose uppercased stripped form
matches none of the field's keywords. -/
theorem field_processLine_nomatch {k : Campo} {line : List Char}
    (h : ∀ kw ∈ mapeo k, kw.data.isPrefixOf (pyUpperL (pyStripL line)) = false)
    (r : AnalysisRes) : field k (processLine r line) = field k r := by
  unfold processLine
  by_cases he : pyStripL line = []
  · simp [he]
  · simp only [if_neg he]
    exact field_foldl_applyKey h _ tableOrder r

/-- A field keeps its value across a block of lines none of which matches
its keywords. -/
theorem field_foldl_processLine {k : Campo} :
    ∀ (ls : List (List Char)),
      (∀ ln ∈ ls, ∀ kw ∈ mapeo k,
        kw.data.isPrefixOf (pyUpperL (pyStripL ln)) = false) →
      ∀ r : AnalysisRes, field k (ls.foldl processLine r) = field k r := by
  intro ls
  induction ls with
  | nil => intro _ r; rfl
  | cons ln t ih =>
    intro h r
    rw [List.foldl_cons, ih (fun l hl => h l (List.mem_cons_of_mem _ hl))]
    exact field_processLine_nomatch (h ln (List.mem_cons_self _ _)) r

/-- A line that matches no keyword at all is discarded: it has no effect on
the accumulated record. -/
theorem processLine_nomatch {line : List Char}
    (h : ∀ (k : Campo), ∀ kw ∈ mapeo k,
      kw.data.isPrefixOf (pyUpperL (pyStripL line)) = false)
    (r : AnalysisRes) : processLine r line = r := by
  unfold processLine
  by_cases he : pyStripL line = []
  · simp [he]
  · simp only [if_neg he, tableOrder, List.foldl]
    rw [applyKey_nomatch (h .tecnico), applyKey_nomatch (h .decision),
      applyKey_nomatch (h .tipo), applyKey_nomatch (h .riesgo),
      applyKey_nomatch (h .motivo)]

/-- A line containing no colon is a no-op for every keyword test: even when
a keyword matches, `len(parts) > 1` fails and nothing is assigned. -/
theorem applyKw_nocolon {line : List Char} (h : colonRest line = none)
    (k : Campo) (upper : List Char) (r : AnalysisRes) (kw : String) :
    applyKw k line upper r kw = r := by
  unfold applyKw
  rw [h]
  split <;> rfl

/-- A line containing no colon never changes the record. -/
theorem processLine_nocolon {line : List Char}
    (h : colonRest (pyStripL line) = none) (r : AnalysisRes) :
    processLine r line = r := by
  unfold processLine
  by_cases he : pyStripL line = []
  · simp [he]
  · simp only [if_neg he, tableOrder, List.foldl]
    have hk : ∀ (k : Campo) (r : AnalysisRes),
        applyKey (pyStripL line) (pyUpperL (pyStripL line)) r k = r := by
      intro k r
      cases k <;>
        simp only [applyKey, mapeo, List.foldl] <;>
        (repeat rw [applyKw_nocolon h])
    rw [hk, hk, hk, hk, hk]

/-! ## Helper lemmas for the well-formed five-section input -/

theorem removeStarStar_eq_self : ∀ (l : List Char), '*' ∉ l → removeStarStar l = l
  | [], _ => rfl
  | [_], _ => rfl
  | c1 :: c2 :: rest, h => by
    have h1 : c1 ≠ '*' := fun he => h (he ▸ List.mem_cons_self _ _)
    have h2 : '*' ∉ c2 :: rest := fun hm => h (List.mem_cons_of_mem _ hm)
    unfold removeStarStar
    rw [if_neg (fun hc => h1 hc.1), removeStarStar_eq_self (c2 :: rest) h2]

theorem splitNlL_no_nl : ∀ (l : List Char), '\n' ∉ l → splitNlL l = [l]
  | [], _ => rfl
  | c :: rest, h => by
    have hc : c ≠ '\n' := fun he => h (he ▸ List.mem_cons_self _ _)
    have hr : '\n' ∉ rest := fun hm => h (List.mem_cons_of_mem _ hm)
    unfold splitNlL
    rw [if_neg hc, splitNlL_no_nl rest hr]

theorem splitNlL_append : ∀ (l t : List Char), '\n' ∉ l →
    splitNlL (l ++ '\n' :: t) = l :: splitNlL t
  | [], t, _ => by
    show splitNlL ('\n' :: t) = [] :: splitNlL t
    simp [splitNlL]
  | c :: rest, t, h => by
    have hc : c ≠ '\n' := fun he => h (he ▸ List.mem_cons_self _ _)
    have hr : '\n' ∉ rest := fun hm => h (List.mem_cons_of_mem _ hm)
    show splitNlL (c :: (rest ++ '\n' :: t)) = (c :: rest) :: splitNlL t
    simp only [splitNlL]
    rw [if_neg hc, splitNlL_append rest t hr]

theorem splitNl_joinNl : ∀ (ls : List (List Char)), (∀ l ∈ ls, '\n' ∉ l) →
    ls ≠ [] → splitNlL (joinNl ls) = ls
  | [], _, hne => absurd rfl hne
  | [l], h, _ => splitNlL_no_nl l (h l (List.mem_cons_self _ _))
  | l :: l2 :: ls, h, _ => by
    show splitNlL (l ++ '\n' :: joinNl (l2 :: ls)) = l :: (l2 :: ls)
    rw [splitNlL_append _ _ (h l (List.mem_cons_self _ _))]
    rw [splitNl_joinNl (l2 :: ls) (fun x hx => h x (List.mem_cons_of_mem _ hx))
      (by simp)]

theorem mem_joinNl : ∀ (ls : List (List Char)) (c : Char), c ∈ joinNl ls →
    c = '\n' ∨ ∃ l ∈ ls, c ∈ l
  | [], _, h => by simp [joinNl] at h
  | [l], c, h => Or.inr ⟨l, List.mem_cons_self _ _, h⟩
  | l :: l2 :: ls, c, h => by
    rw [show joinNl (l :: l2 :: ls) = l ++ '\n' :: joinNl (l2 :: ls) from rfl]
      at h
    rcases List.mem_append.mp h with h1 | h2
    · exact Or.inr ⟨l, List.mem_cons_self _ _, h1⟩
    · rcases List.mem_cons.mp h2 with h3 | h4
      · exact Or.inl h3
      · rcases mem_joinNl (l2 :: ls) c h4 with h5 | ⟨x, hx, hcx⟩
        · exact Or.inl h5
        · exact Or.inr ⟨x, List.mem_cons_of_mem _ hx, hcx⟩

theorem joinNl_ne_nil (l : List Char) (ls : List (List Char)) (hl : l ≠ []) :
    joinNl (l :: ls) ≠ [] := by
  cases ls with
  | nil => exact hl
  | cons l2 ls2 =>
    show l ++ '\n' :: joinNl (l2 :: ls2) ≠ []
    simp

theorem joinNl_head? (l : List Char) (ls : List (List Char)) (hl : l ≠ []) :
    (joinNl (l :: ls)).head? = l.head? := by
  cases ls with
  | nil => rfl
  | cons l2 ls2 =>
    obtain ⟨c, t, rfl⟩ := List.exists_cons_of_ne_nil hl
    rfl

theorem joinNl_getLast_false : ∀ (ls : List (List Char)),
    (∀ l ∈ ls, l ≠ []) →
    (∀ l ∈ ls, ∀ c ∈ l.getLast?, pyIsSpace c = false) →
    ∀ c ∈ (joinNl ls).getLast?, pyIsSpace c = false
  | [], _, _ => by simp [joinNl]
  | [l], _, h => h l (List.mem_cons_self _ _)
  | l :: l2 :: ls, hne, h => by
    intro c hc
    rw [show joinNl (l :: l2 :: ls) = l ++ '\n' :: joinNl (l2 :: ls) from rfl,
      List.getLast?_append] at hc
    have hj : joinNl (l2 :: ls) ≠ [] :=
      joinNl_ne_nil l2 ls (hne l2 (List.mem_cons_of_mem _ (List.mem_cons_self _ _)))
    obtain ⟨y, ys, hy⟩ := List.exists_cons_of_ne_nil hj
    rw [hy, List.getLast?_cons_cons] at hc
    have htail : ∀ c ∈ (joinNl (l2 :: ls)).getLast?, pyIsSpace c = false :=
      joinNl_getLast_false (l2 :: ls)
        (fun x hx => hne x (List.mem_cons_of_mem _ hx))
        (fun x hx => h x (List.mem_cons_of_mem _ hx))
    rw [hy] at htail
    apply htail
    cases hg : (y :: ys).getLast? with
    | none => simp at hg
    | some d =>
      rw [hg] at hc
      simpa using hc

theorem headerLine_head_false (k : Campo) (v : List Char) :
    ∀ c ∈ (headerLineL k v).head?, pyIsSpace c = false := by
  cases k <;>
    (intro c hc
     have h2 := Option.some.inj hc
     subst h2
     decide)

theorem headerLine_getLast? (k : Campo) (v : List Char) (hv : v ≠ []) :
    (headerLineL k v).getLast? = v.getLast? := by
  obtain ⟨y, ys, rfl⟩ := List.exists_cons_of_ne_nil hv
  rw [headerLineL, List.getLast?_append, List.getLast?_cons_cons,
    List.getLast?_cons_cons]
  cases hg : (y :: ys).getLast? with
  | none => simp at hg
  | some d => rfl

theorem headerLine_ne_nil (k : Campo) (v : List Char) : headerLineL k v ≠ [] := by
  cases k <;> simp [headerLineL]

theorem headerLine_no_nl (k : Campo) (v : List Char) (hv : '\n' ∉ v) :
    '\n' ∉ headerLineL k v := by
  intro hmem
  rw [headerLineL] at hmem
  rcases List.mem_append.mp hmem with h1 | h2
  · revert h1
    cases k <;> decide
  · rcases List.mem_cons.mp h2 with h3 | h4
    · exact absurd h3 (by decide)
    · rcases List.mem_cons.mp h4 with h5 | h6
      · exact absurd h5 (by decide)
      · exact hv h6

theorem headerLine_no_star (k : Campo) (v : List Char) (hv : '*' ∉ v) :
    '*' ∉ headerLineL k v := by
  intro hmem
  rw [headerLineL] at hmem
  rcases List.mem_append.mp hmem with h1 | h2
  · revert h1
    cases k <;> decide
  · rcases List.mem_cons.mp h2 with h3 | h4
    · exact absurd h3 (by decide)
    · rcases List.mem_cons.mp h4 with h5 | h6
      · exact absurd h5 (by decide)
      · exact hv h6

/-- Processing a well-formed header line `"LABEL: value"` (value trimmed and
nonempty) sets exactly that label's field to the value. -/
theorem processLine_header (k : Campo) (v : List Char)
    (hv : pyStripL v = v) (hne : v ≠ []) (r : AnalysisRes) :
    processLine r (headerLineL k v) = setField r k (String.mk v) := by
  have hstrip : pyStripL (headerLineL k v) = headerLineL k v := by
    apply pyStripL_eq_self
    · exact headerLine_head_false k v
    · rw [headerLine_getLast? k v hne]
      exact stripped_last_not_space v hv
  have hsv : pyStripL (' ' :: v) = v := by
    rw [pyStripL_cons_space _ _ (by decide)]
    exact hv
  unfold processLine
  rw [hstrip, if_neg (headerLine_ne_nil k v)]
  cases k with
  | tecnico => exact congrArg (fun w => setField r Campo.tecnico (String.mk w)) hsv
  | decision => exact congrArg (fun w => setField r Campo.decision (String.mk w)) hsv
  | tipo => exact congrArg (fun w => setField r Campo.tipo (String.mk w)) hsv
  | riesgo => exact congrArg (fun w => setField r Campo.riesgo (String.mk w)) hsv
  | motivo => exact congrArg (fun w => setField r Campo.motivo (String.mk w)) hsv

theorem foldl_header_lines (vals : Campo → String)
    (hstrip : ∀ k, pyStripL (vals k).data = (vals k).data)
    (hne : ∀ k, (vals k).data ≠ []) :
    ∀ (ks : List Campo) (r : AnalysisRes),
      (ks.map (fun k => headerLineL k (vals k).data)).foldl processLine r =
        ks.foldl (fun r k => setField r k (vals k)) r := by
  intro ks
  induction ks with
  | nil => intro r; rfl
  | cons k t ih =>
    intro r
    rw [List.map_cons, List.foldl_cons, List.foldl_cons,
      processLine_header k (vals k).data (hstrip k) (hne k) r]
    exact ih (setField r k (String.mk (vals k).data))

theorem field_foldl_setField (vals : Campo → String) :
    ∀ (ks : List Campo) (r : AnalysisRes) (j : Campo),
      field j (ks.foldl (fun r k => setField r k (vals k)) r) =
        if j ∈ ks then vals j else field j r := by
  intro ks
  induction ks with
  | nil => intro r j; simp
  | cons k t ih =>
    intro r j
    rw [List.foldl_cons, ih]
    by_cases hjt : j ∈ t
    · simp [hjt]
    · by_cases hjk : j = k
      · subst hjk
        simp [hjt, field_setField]
      · simp [hjt, hjk, field_setField]

theorem res_eq_of_fields (a b : AnalysisRes)
    (h : ∀ j, field j a = field j b) : a = b := by
  cases a
  cases b
  have h1 := h .tecnico
  have h2 := h .decision
  have h3 := h .tipo
  have h4 := h .riesgo
  have h5 := h .motivo
  simp only [field] at h1 h2 h3 h4 h5
  rw [h1, h2, h3, h4, h5]

/-! ## Theorems -/

/-- C1, counterexample: `parse_analysis` does not canonicalize the decision.
Two inputs with unrecognized decision text yield two distinct raw decisions
("tal vez" and "quien sabe"), neither of which is any of the three values of
the response vocabulary (OPERAR / ESPERAR / NO OPERAR); since they differ
from each other they cannot both be the single canonical DO_NOT_OPERATE, and
the decision field is not confined to three canonical values. -/
theorem decision_not_canonicalized :
    (parse_analysis "DECISION: tal vez").decision = "tal vez" ∧
    (parse_analysis "DECISION: quien sabe").decision = "quien sabe" ∧
    "tal vez" ≠ "quien sabe" ∧
    "tal vez" ∉ (["OPERAR", "ESPERAR", "NO OPERAR"] : List String) := by
  refine ⟨rfl, rfl, by decide, by decide⟩

/-- C1, amended: the decision field holds the trimmed text after the colon
verbatim — "DECISION: OPERAR" / "DECISION: NO OPERAR" / "DECISION: ESPERAR"
yield the raw values OPERAR / NO OPERAR / ESPERAR, unrecognized decision
text passes through unchanged instead of becoming DO_NOT_OPERATE, and only
an absent decision line leaves the default ESPERAR (WAIT). -/
theorem decision_raw_passthrough :
    (parse_analysis "DECISION: OPERAR").decision = "OPERAR" ∧
    (parse_analysis "DECISION: NO OPERAR").decision = "NO OPERAR" ∧
    (parse_analysis "DECISION: ESPERAR").decision = "ESPERAR" ∧
    (parse_analysis "DECISION: tal vez").decision = "tal vez" ∧
    (parse_analysis "").decision = "ESPERAR" :=
  ⟨rfl, rfl, rfl, rfl, rfl⟩

/-- C2, counterexample: the spec's continuation scenario fails on the code.
A header line "RIESGO:" followed by the continuation line
"Medio, por volatilidad" leaves the risk field equal to "" (set empty by the
colon on the header line); the continuation line is discarded, so the field
does not hold "Medio, por volatilidad". -/
theorem no_continuation_lines :
    (parse_analysis "RIESGO:\nMedio, por volatilidad").riesgo = "" ∧
    "" ≠ "Medio, por volatilidad" :=
  ⟨rfl, by decide⟩

/-- C2, amended: the parser has no continuation-line handling — a non-blank
line that matches no registered keyword is discarded with no effect on the
record, whatever came before it; consequently the scenario with header line
"RIESGO:" followed by "Medio, por volatilidad" leaves the risk field equal
to "" (set by the colon of the header line), not the continuation text. -/
theorem unmatched_lines_discarded :
    (∀ (r : AnalysisRes) (line : List Char),
      (∀ (k : Campo), ∀ kw ∈ mapeo k,
        kw.data.isPrefixOf (pyUpperL (pyStripL line)) = false) →
      processLine r line = r) ∧
    (parse_analysis "RIESGO:\nMedio, por volatilidad").riesgo = "" :=
  ⟨fun r line h => processLine_nomatch h r, rfl⟩

/-- Witness for `unmatched_lines_discarded`: the continuation line of the
spec's own scenario is discarded against any record. -/
theorem unmatched_lines_discarded_witness :
    processLine defaultRes ("Medio, por volatilidad".data) = defaultRes :=
  unmatched_lines_discarded.1 defaultRes ("Medio, por volatilidad".data)
    (by decide)

/-- C3: `parse_analysis` is a total function returning a fully populated
record; the empty string yields exactly the defaulted record (ESPERAR = WAIT,
N/A = NONE, ALTO = HIGH, "..." the sentinel for both text fields), and for
every input, any field none of whose keywords matches any line keeps its
documented default. -/
theorem parse_total_defaults :
    parse_analysis "" = defaultRes ∧
    ∀ (text : String) (k : Campo),
      (∀ ln ∈ splitNlL (pyStripL (removeStarStar text.data)), ∀ kw ∈ mapeo k,
        kw.data.isPrefixOf (pyUpperL (pyStripL ln)) = false) →
      field k (parse_analysis text) = field k defaultRes := by
  refine ⟨rfl, ?_⟩
  intro text k h
  unfold parse_analysis
  exact field_foldl_processLine _ h defaultRes

/-- Witness for `parse_total_defaults`: a garbage two-line input keeps the
risk default. -/
theorem parse_total_defaults_witness :
    field Campo.riesgo (parse_analysis "hola\nmundo") =
      field Campo.riesgo defaultRes :=
  parse_total_defaults.2 "hola\nmundo" Campo.riesgo (by decide)

/-- C4: for every well-formed input made of the five labeled section lines
"LABEL: value" in any order (values trimmed, nonempty, containing no newline
and no asterisk), `parse_analysis` extracts each value verbatim into the
corresponding record field; in particular the spec's end-to-end example
yields exactly the expected record (OPERAR = OPERATE, COMPRA = BUY,
BAJO = LOW in the response vocabulary). -/
theorem wellformed_any_order :
    (∀ (vals : Campo → String) (ks : List Campo),
      (∀ k, pyStripL (vals k).data = (vals k).data) →
      (∀ k, (vals k).data ≠ []) →
      (∀ k, '\n' ∉ (vals k).data) →
      (∀ k, '*' ∉ (vals k).data) →
      ks.Perm tableOrder →
      parse_analysis
        (String.mk (joinNl (ks.map (fun k => headerLineL k (vals k).data)))) =
        mkRes vals) ∧
    parse_analysis
        "ANALISIS: Strong uptrend\nDECISION: OPERAR\nTIPO: COMPRA\nRIESGO: BAJO\nMOTIVO: Breakout confirmed" =
      { tecnico := "Strong uptrend", decision := "OPERAR", tipo := "COMPRA",
        riesgo := "BAJO", motivo := "Breakout confirmed" } := by
  refine ⟨?_, rfl⟩
  intro vals ks h1 h2 h3 h4 hperm
  have hksne : ks ≠ [] := by
    intro he
    have hlen := hperm.length_eq
    rw [he] at hlen
    simp [tableOrder] at hlen
  have hlinene : ∀ l ∈ ks.map (fun k => headerLineL k (vals k).data), l ≠ [] := by
    intro l hl
    obtain ⟨k, _, rfl⟩ := List.mem_map.mp hl
    exact headerLine_ne_nil k (vals k).data
  have hlinenl : ∀ l ∈ ks.map (fun k => headerLineL k (vals k).data),
      '\n' ∉ l := by
    intro l hl
    obtain ⟨k, _, rfl⟩ := List.mem_map.mp hl
    exact headerLine_no_nl k (vals k).data (h3 k)
  have hstar : '*' ∉ joinNl (ks.map (fun k => headerLineL k (vals k).data)) := by
    intro hmem
    rcases mem_joinNl _ '*' hmem with h5 | ⟨l, hl, hcl⟩
    · exact absurd h5 (by decide)
    · obtain ⟨k, _, rfl⟩ := List.mem_map.mp hl
      exact headerLine_no_star k (vals k).data (h4 k) hcl
  obtain ⟨k0, ks', rfl⟩ := List.exists_cons_of_ne_nil hksne
  have hhead : ∀ c ∈
      (joinNl ((k0 :: ks').map (fun k => headerLineL k (vals k).data))).head?,
      pyIsSpace c = false := by
    rw [List.map_cons,
      joinNl_head? _ _ (headerLine_ne_nil k0 (vals k0).data)]
    exact headerLine_head_false k0 (vals k0).data
  have hlast : ∀ c ∈
      (joinNl ((k0 :: ks').map (fun k => headerLineL k (vals k).data))).getLast?,
      pyIsSpace c = false := by
    apply joinNl_getLast_false _ hlinene
    intro l hl
    obtain ⟨k, _, rfl⟩ := List.mem_map.mp hl
    rw [headerLine_getLast? k (vals k).data (h2 k)]
    exact stripped_last_not_space (vals k).data (h1 k)
  show (splitNlL (pyStripL (removeStarStar
      (joinNl ((k0 :: ks').map (fun k => headerLineL k (vals k).data)))))).foldl
      processLine defaultRes = mkRes vals
  rw [removeStarStar_eq_self _ hstar, pyStripL_eq_self _ hhead hlast,
    splitNl_joinNl _ hlinenl (by simp),
    foldl_header_lines vals h1 h2 (k0 :: ks') defaultRes]
  apply res_eq_of_fields
  intro j
  rw [field_foldl_setField vals (k0 :: ks') defaultRes j,
    if_pos (hperm.mem_iff.mpr (by cases j <;> decide))]
  cases j <;> rfl

/-- Witness for `wellformed_any_order`: the five sections of the spec's
example given in a scrambled order are all extracted. -/
theorem wellformed_any_order_witness :
    parse_analysis (String.mk (joinNl
      (([Campo.riesgo, Campo.decision, Campo.tecnico, Campo.motivo,
        Campo.tipo]).map (fun k => headerLineL k ((fun k => match k with
          | Campo.tecnico => "Tendencia alcista"
          | Campo.decision => "OPERAR"
          | Campo.tipo => "COMPRA"
          | Campo.riesgo => "BAJO"
          | Campo.motivo => "Ruptura confirmada") k).data)))) =
      mkRes (fun k => match k with
        | Campo.tecnico => "Tendencia alcista"
        | Campo.decision => "OPERAR"
        | Campo.tipo => "COMPRA"
        | Campo.riesgo => "BAJO"
        | Campo.motivo => "Ruptura confirmada") :=
  wellformed_any_order.1
    (fun k => match k with
      | Campo.tecnico => "Tendencia alcista"
      | Campo.decision => "OPERAR"
      | Campo.tipo => "COMPRA"
      | Campo.riesgo => "BAJO"
      | Campo.motivo => "Ruptura confirmada")
    [Campo.riesgo, Campo.decision, Campo.tecnico, Campo.motivo, Campo.tipo]
    (by decide) (by decide) (by decide) (by decide) (by decide)

/-- C5, counterexample: a header line with no colon does not set the field
to the empty string (and opens no section): "RIESGO" alone leaves the
default "ALTO", and a following line never populates the field. -/
theorem no_colon_no_effect_counterexample :
    (parse_analysis "RIESGO").riesgo = "ALTO" ∧
    "ALTO" ≠ "" ∧
    (parse_analysis "RIESGO\nMedio").riesgo = "ALTO" :=
  ⟨rfl, by decide, rfl⟩

/-- C5, amended: when a recognized header line contains a colon, the trimmed
text after the first colon becomes the field's value (possibly the empty
string for a bare "RIESGO:"); when it contains no colon the line has no
effect at all — the field keeps its previous value rather than becoming the
empty string, and no section is opened (the parser keeps no section state). -/
theorem no_colon_line_noop :
    (∀ (r : AnalysisRes) (line : List Char),
      colonRest (pyStripL line) = none → processLine r line = r) ∧
    (parse_analysis "RIESGO").riesgo = "ALTO" ∧
    (parse_analysis "RIESGO:").riesgo = "" ∧
    (parse_analysis "RIESGO: BAJO").riesgo = "BAJO" ∧
    (parse_analysis "RIESGO:   BAJO  ").riesgo = "BAJO" :=
  ⟨fun r line h => processLine_nocolon h r, rfl, rfl, rfl, rfl⟩

/-- Witness for `no_colon_line_noop`: the colonless header "RIESGO" leaves
any record unchanged. -/
theorem no_colon_line_noop_witness :
    processLine defaultRes ("RIESGO".data) = defaultRes :=
  no_colon_line_noop.1 defaultRes ("RIESGO".data) (by decide)

/-- C6: at most one (field, keyword) pair of the table can match any given
line — no two distinct keywords are prefixes of one same line — so the first
match in table order is the only match, no later field also matches the same
line, and header matching updates at most that one field (any other field is
left untouched by a line that matches some keyword). -/
theorem first_match_unique :
    (∀ (u : List Char) (k1 k2 : Campo) (kw1 kw2 : String),
      kw1 ∈ mapeo k1 → kw2 ∈ mapeo k2 →
      kw1.data.isPrefixOf u = true → kw2.data.isPrefixOf u = true →
      k1 = k2 ∧ kw1 = kw2) ∧
    (∀ (r : AnalysisRes) (line : List Char) (k j : Campo) (kw : String),
      kw ∈ mapeo k → kw.data.isPrefixOf (pyUpperL (pyStripL line)) = true →
      j ≠ k → field j (processLine r line) = field j r) := by
  refine ⟨matchUnique, ?_⟩
  intro r line k j kw hmem hpre hjk
  have hnone : ∀ kw' ∈ mapeo j,
      kw'.data.isPrefixOf (pyUpperL (pyStripL line)) = false := by
    intro kw' hmem'
    cases hb : kw'.data.isPrefixOf (pyUpperL (pyStripL line)) with
    | false => rfl
    | true =>
      obtain ⟨hjk', _⟩ := matchUnique _ j k kw' kw hmem' hmem hb hpre
      exact absurd hjk' hjk
  exact field_processLine_nomatch hnone r

/-- Witness for `first_match_unique`: the line "RIESGO: BAJO" matches the
risk keyword, and the motivo field of any record survives it unchanged. -/
theorem first_match_unique_witness :
    field Campo.motivo (processLine defaultRes ("RIESGO: BAJO".data)) =
      field Campo.motivo defaultRes :=
  first_match_unique.2 defaultRes ("RIESGO: BAJO".data) Campo.riesgo
    Campo.motivo "RIESGO" (by decide) (by decide) (by decide)

/-- C7, counterexample: unrecognized risk / position text does not keep the
field default — it is stored verbatim: "RIESGO: quizas" yields risk
"quizas" (not the default "ALTO"), and "TIPO: cualquier cosa" yields
position "cualquier cosa" (not the default "N/A"). -/
theorem risk_tipo_not_defaulted :
    (parse_analysis "RIESGO: quizas").riesgo = "quizas" ∧
    "quizas" ≠ "ALTO" ∧
    (parse_analysis "TIPO: cualquier cosa").tipo = "cualquier cosa" ∧
    "cualquier cosa" ≠ "N/A" :=
  ⟨rfl, by decide, rfl, by decide⟩

/-- C7, amended: risk and position_type pass through as the raw trimmed text
after the colon with no case-insensitive mapping to an enum — lowercase
"bajo"/"compra" stay lowercase, unrecognized text is kept verbatim — and the
documented defaults (ALTO = HIGH, N/A = NONE) remain only when the section
is absent from the input. -/
theorem risk_tipo_raw_passthrough :
    (parse_analysis "RIESGO: bajo").riesgo = "bajo" ∧
    (parse_analysis "RIESGO: BAJO").riesgo = "BAJO" ∧
    (parse_analysis "TIPO: compra").tipo = "compra" ∧
    (parse_analysis "RIESGO: quizas").riesgo = "quizas" ∧
    (parse_analysis "").riesgo = "ALTO" ∧
    (parse_analysis "").tipo = "N/A" :=
  ⟨rfl, rfl, rfl, rfl, rfl, rfl⟩

/-- C8, counterexample: markdown heading markers are not stripped — the
line "# DECISION: OPERAR" is not recognized as a decision header and the
decision keeps its default "ESPERAR" instead of "OPERAR". -/
theorem heading_marker_not_stripped :
    (parse_analysis "# DECISION: OPERAR").decision = "ESPERAR" ∧
    "ESPERAR" ≠ "OPERAR" :=
  ⟨rfl, by decide⟩

/-- C8, amended: before line splitting, `parse_analysis` removes every
occurrence of the emphasis marker `**` and trims the text, so
"**DECISION**: x" is recognized as a decision header; markdown heading
markers are not removed, so "# DECISION: x" is not recognized and leaves
the default. -/
theorem only_emphasis_stripped :
    (parse_analysis "**DECISION**: OPERAR").decision = "OPERAR" ∧
    (parse_analysis "  **DECISION**: OPERAR  ").decision = "OPERAR" ∧
    (parse_analysis "# DECISION: OPERAR").decision = "ESPERAR" :=
  ⟨rfl, rfl, rfl⟩

/-- The fixed error marker is a prefix of every marker-plus-detail string. -/
theorem marker_prefix_append (e : String) :
    ("ERROR_IA: ").data.isPrefixOf ("ERROR_IA: " ++ e).data = true := by
  rw [String.data_append]
  exact List.isPrefixOf_iff_prefix.mpr ⟨e.data, rfl⟩

/-- C9: for every exception raised during the LLM call, both analysis entry
points return the fixed marker prefix "ERROR_IA: " followed by the failure
detail instead of raising, and on success they return the LLM's text as is,
with no prefix prepended — so the orchestrator's prefix check tells an
AI-service failure from a normal reply. -/
theorem llm_error_marker :
    (∀ (llm : List String → Except String String) (d : DataSummary)
      (e : String), llm [d.symbol, buildInputText d, DATA_PROMPT] = .error e →
      analyze_data_with_ai llm d = "ERROR_IA: " ++ e ∧
      ("ERROR_IA: ").data.isPrefixOf (analyze_data_with_ai llm d).data = true) ∧
    (∀ (llm : List String → Except String String) (d : DataSummary)
      (t : String), llm [d.symbol, buildInputText d, DATA_PROMPT] = .ok t →
      analyze_data_with_ai llm d = t) ∧
    (∀ (llm : List Nat → String → Except String String) (b : List Nat)
      (p e : String), llm b p = .error e →
      analyze_chart llm b p = "ERROR_IA: " ++ e ∧
      ("ERROR_IA: ").data.isPrefixOf (analyze_chart llm b p).data = true) ∧
    (∀ (llm : List Nat → String → Except String String) (b : List Nat)
      (p t : String), llm b p = .ok t → analyze_chart llm b p = t) := by
  refine ⟨?_, ?_, ?_, ?_⟩
  · intro llm d e h
    unfold analyze_data_with_ai
    rw [h]
    exact ⟨rfl, marker_prefix_append e⟩
  · intro llm d t h
    unfold analyze_data_with_ai
    rw [h]
  · intro llm b p e h
    unfold analyze_chart
    rw [h]
    exact ⟨rfl, marker_prefix_append e⟩
  · intro llm b p t h
    unfold analyze_chart
    rw [h]

/-- Witness for `llm_error_marker`: a failing LLM call on a concrete
summary yields the marker-prefixed error string. -/
theorem llm_error_marker_witness :
    analyze_data_with_ai (fun _ => Except.error "boom")
      ⟨"EURUSD", "1.1", "50.0", "1.1", "1.1", "ALCISTA", "0.5"⟩ =
      "ERROR_IA: " ++ "boom" ∧
    ("ERROR_IA: ").data.isPrefixOf
      (analyze_data_with_ai (fun _ => Except.error "boom")
        ⟨"EURUSD", "1.1", "50.0", "1.1", "1.1", "ALCISTA", "0.5"⟩).data =
      true :=
  llm_error_marker.1 (fun _ => Except.error "boom")
    ⟨"EURUSD", "1.1", "50.0", "1.1", "1.1", "ALCISTA", "0.5"⟩ "boom" rfl

/-- C10: the market-data fetch needs at least two bars — the percent change
reads `df.iloc[-2]` — so whenever the parsed series has fewer than two bars
the raised `IndexError` is caught and `get_analysis_data` returns
unavailability (`None`) instead of raising, for any indicator outcomes and
whether or not the API key is set. -/
theorem short_series_unavailable :
    ∀ (ema20F ema50F rsiF : List ℚ → Option ℚ) (hasKey : Bool)
      (symbol : String) (closes : List ℚ), closes.length < 2 →
      get_analysis_data ema20F ema50F rsiF hasKey symbol (some closes) = none := by
  intro e20 e50 rsf hasKey symbol closes hlen
  cases hasKey with
  | false => rfl
  | true =>
    show marketTry e20 e50 rsf symbol closes = none
    cases closes with
    | nil => rfl
    | cons a t =>
      cases t with
      | nil => rfl
      | cons b t2 =>
        simp only [List.length_cons] at hlen
        omega

/-- Witness for `short_series_unavailable`: a one-bar series yields `none`. -/
theorem short_series_unavailable_witness :
    get_analysis_data (fun _ => none) (fun _ => none) (fun _ => none) true
      "EURUSD" (some [5]) = none :=
  short_series_unavailable (fun _ => none) (fun _ => none) (fun _ => none)
    true "EURUSD" [5] (by decide)

end TradersF
